import Mathlib

/-!
Shallow embedding of the COVID-19 tracker pipeline (`index.py`,
notebook `COVID-19_Global_Data_Tracker.ipynb`).

The notebook manipulates one pandas DataFrame.  We embed it as a list of
rows.  A pandas float column holds either a finite value, the missing-value
marker NaN, or a signed infinity; `EVal` models exactly that, with finite
values as rationals.  Raw CSV rows are ordered association lists from
column name to cell, so that column selection and column order are
observable; after the projection stage rows are converted to a structured
record (`Obs`, then `DRow` once the two derived metrics are attached).

Dates: `pd.to_datetime` normalises each date to day granularity and the
notebook only compares, maxes, mins and subtracts them, so a date is
embedded as its day number (`toDay` below is the standard civil-calendar
day-number function); subtracting two day numbers is exactly what
`(latest_date - date).days` reports.
-/

/-- Product of two rationals, computed through `mkRat` so that the kernel
can evaluate it on concrete inputs; `ratMul_eq` below shows it is ordinary
rational multiplication. -/
def ratMul (a b : ℚ) : ℚ :=
  mkRat (a.num * b.num) (a.den * b.den)

/-- Sum of two rationals through `mkRat`; see `ratAdd_eq`. -/
def ratAdd (a b : ℚ) : ℚ :=
  mkRat (a.num * b.den + b.num * a.den) (a.den * b.den)

/-- Quotient of two rationals through `mkRat` (0 on a zero divisor, like
division in `ℚ`); see `ratDiv_eq`. -/
def ratDiv (a b : ℚ) : ℚ :=
  mkRat (if 0 ≤ b.num then a.num * b.den else -(a.num * b.den)) (a.den * b.num.natAbs)

theorem ratMul_eq (a b : ℚ) : ratMul a b = a * b := by
  unfold ratMul
  rw [Rat.mkRat_eq_div]
  push_cast
  conv_rhs => rw [← Rat.num_div_den a, ← Rat.num_div_den b]
  rw [div_mul_div_comm]

theorem ratAdd_eq (a b : ℚ) : ratAdd a b = a + b := by
  have had : (a.den : ℚ) ≠ 0 := by exact_mod_cast a.den_nz
  have hbd : (b.den : ℚ) ≠ 0 := by exact_mod_cast b.den_nz
  unfold ratAdd
  rw [Rat.mkRat_eq_div]
  push_cast
  conv_rhs => rw [← Rat.num_div_den a, ← Rat.num_div_den b]
  field_simp

theorem ratDiv_eq (a b : ℚ) : ratDiv a b = a / b := by
  unfold ratDiv
  rcases eq_or_ne b 0 with hb | hb
  · subst hb
    simp [Rat.mkRat_eq_div]
  · have hbn : b.num ≠ 0 := Rat.num_ne_zero.mpr hb
    have had : (a.den : ℚ) ≠ 0 := by exact_mod_cast a.den_nz
    have hbd : (b.den : ℚ) ≠ 0 := by exact_mod_cast b.den_nz
    have hbnq : (b.num : ℚ) ≠ 0 := by exact_mod_cast hbn
    rw [Rat.mkRat_eq_div]
    conv_rhs => rw [← Rat.num_div_den a, ← Rat.num_div_den b]
    rw [div_div_div_comm]
    rcases le_or_lt 0 b.num with h | h
    · rw [if_pos h]
      have h1 : ((b.num.natAbs : ℤ) : ℚ) = (b.num.natAbs : ℚ) := Int.cast_natCast _
      have habs : (b.num.natAbs : ℚ) = (b.num : ℚ) := by
        rw [← h1, Int.natAbs_of_nonneg h]
      push_cast [habs]
      field_simp
      exact Or.inl (mul_comm _ _)
    · rw [if_neg (not_le.mpr h)]
      have h1 : ((b.num.natAbs : ℤ) : ℚ) = (b.num.natAbs : ℚ) := Int.cast_natCast _
      have habs : (b.num.natAbs : ℚ) = -(b.num : ℚ) := by
        rw [← h1, Int.ofNat_natAbs_of_nonpos (le_of_lt h), Int.cast_neg]
      push_cast [habs]
      field_simp
      exact Or.inl (mul_comm _ _)

/-- A pandas float cell: a finite rational, NaN (missing / indeterminate),
or a signed infinity. -/
inductive EVal where
  | num (q : ℚ)
  | nan
  | pinf
  | ninf
deriving DecidableEq, Repr

namespace EVal

/-- Elementwise float division as pandas performs it (IEEE-754 semantics:
NaN propagates, finite/0 gives a signed infinity or NaN for 0/0). -/
def div : EVal → EVal → EVal
  | nan, _ => nan
  | _, nan => nan
  | num a, num b =>
      if b = 0 then (if a = 0 then nan else if 0 < a then pinf else ninf)
      else num (ratDiv a b)
  | num _, pinf => num 0
  | num _, ninf => num 0
  | pinf, num b => if b < 0 then ninf else pinf
  | ninf, num b => if b < 0 then pinf else ninf
  | pinf, pinf => nan
  | pinf, ninf => nan
  | ninf, pinf => nan
  | ninf, ninf => nan

/-- Elementwise float multiplication (IEEE-754: NaN propagates,
`0 * inf` is NaN). -/
def mul : EVal → EVal → EVal
  | nan, _ => nan
  | _, nan => nan
  | num a, num b => num (ratMul a b)
  | num a, pinf => if a = 0 then nan else if 0 < a then pinf else ninf
  | num a, ninf => if a = 0 then nan else if 0 < a then ninf else pinf
  | pinf, num b => if b = 0 then nan else if 0 < b then pinf else ninf
  | ninf, num b => if b = 0 then nan else if 0 < b then ninf else pinf
  | pinf, pinf => pinf
  | pinf, ninf => ninf
  | ninf, pinf => ninf
  | ninf, ninf => pinf

/-- Elementwise float addition (IEEE-754: NaN propagates,
`inf + (-inf)` is NaN). -/
def add : EVal → EVal → EVal
  | nan, _ => nan
  | _, nan => nan
  | num a, num b => num (ratAdd a b)
  | num _, pinf => pinf
  | num _, ninf => ninf
  | pinf, num _ => pinf
  | ninf, num _ => ninf
  | pinf, pinf => pinf
  | ninf, ninf => ninf
  | pinf, ninf => nan
  | ninf, pinf => nan

/-- The effect of `Series.fillna(0)` on one cell: NaN becomes 0, every
other value is kept. -/
def fillna0 : EVal → EVal
  | nan => num 0
  | v => v

/-- The comparison `cell > 0` as pandas evaluates it (NaN compares false). -/
def gtZero : EVal → Bool
  | num q => decide (0 < q)
  | pinf => true
  | _ => false

/-- Whether the cell holds a finite value. -/
def isNum : EVal → Bool
  | num _ => true
  | _ => false

/-- The finite value of a cell (junk 0 on NaN and infinities; only used
under an `isNum` hypothesis). -/
def toQ : EVal → ℚ
  | num q => q
  | _ => 0

/-- NaN-skipping binary maximum, the fold step of `Series.max()`
(pandas skips NaN by default). -/
def nmax : EVal → EVal → EVal
  | nan, b => b
  | a, nan => a
  | pinf, _ => pinf
  | _, pinf => pinf
  | ninf, b => b
  | a, ninf => a
  | num a, num b => num (max a b)

/-- Strict order on non-NaN floats (any comparison with NaN is false),
used by `idxmax` to keep the first occurrence of the maximum. -/
def lt : EVal → EVal → Bool
  | nan, _ => false
  | _, nan => false
  | pinf, _ => false
  | _, pinf => true
  | ninf, ninf => false
  | ninf, num _ => true
  | num _, ninf => false
  | num a, num b => decide (a < b)

end EVal

instance {ε α : Type} [DecidableEq ε] [DecidableEq α] : DecidableEq (Except ε α) :=
  fun a b =>
    match a, b with
    | Except.ok x, Except.ok y =>
        if h : x = y then isTrue (by rw [h]) else isFalse (by simp [h])
    | Except.error e, Except.error f =>
        if h : e = f then isTrue (by rw [h]) else isFalse (by simp [h])
    | Except.ok _, Except.error _ => isFalse (by simp)
    | Except.error _, Except.ok _ => isFalse (by simp)

/-- Exceptions the notebook can raise, named after their Python classes. -/
inductive PyError where
  | fileNotFound
  | nameError
  | valueError
deriving DecidableEq, Repr

/-- Day number of a civil (proleptic Gregorian) date, valid for years ≥ 1.
Two timestamps produced by `pd.to_datetime` from plain dates differ by
exactly the difference of their day numbers (`.days`). -/
def toDay (y m d : Nat) : Nat :=
  let y2 := if m ≤ 2 then y - 1 else y
  let era := y2 / 400
  let yoe := y2 % 400
  let mp := (m + 9) % 12
  let doy := (153 * mp + 2) / 5 + d - 1
  let doe := yoe * 365 + yoe / 4 - yoe / 100 + doy
  era * 146097 + doe

/-- One cell of the raw CSV table after `pd.to_datetime` has normalised the
date column: a string, a timestamp (day number), or a float. -/
inductive Cell where
  | str (s : String)
  | date (t : Int)
  | val (v : EVal)
deriving DecidableEq, Repr

/-- Cell content as a string (location / iso_code columns). -/
def Cell.asStr : Cell → String
  | str s => s
  | _ => ""

/-- Cell content as a timestamp. -/
def Cell.asDate : Cell → Int
  | date t => t
  | _ => 0

/-- Cell content as a float; a column absent from the CSV reads as NaN. -/
def Cell.asVal : Cell → EVal
  | val v => v
  | _ => EVal.nan

/-- A raw table row: the ordered association list from column name to
cell, in the column order of the frame. -/
abbrev RawRow := List (String × Cell)

/-- Column access `row[c]`; a column missing from the row reads as NaN
(the raw OWID file has many columns; our example rows list only the
consumed ones and leave the rest implicitly missing). -/
def getCell (r : RawRow) (c : String) : Cell :=
  match r.lookup c with
  | some v => v
  | none => Cell.val EVal.nan

/-- Line 58: the fixed entity whitelist. -/
def countries_to_include : List String :=
  ["United States", "India", "Brazil", "United Kingdom", "Germany",
   "Kenya", "South Africa"]

/-- Lines 62-66: the fixed, ordered column whitelist. -/
def columns_to_keep : List String :=
  ["date", "location", "total_cases", "new_cases", "total_deaths",
   "new_deaths", "total_vaccinations", "people_vaccinated",
   "people_fully_vaccinated", "population", "population_density",
   "median_age", "gdp_per_capita"]

/-- Line 59: `df = df[df['location'].isin(countries_to_include)]`. -/
def filterCountries (t : List RawRow) : List RawRow :=
  t.filter (fun r => decide ((getCell r "location").asStr ∈ countries_to_include))

/-- Line 67 applied to one row: `df[columns_to_keep]` rebuilds each row
with exactly the requested columns in the requested order. -/
def projectRow (r : RawRow) : RawRow :=
  columns_to_keep.map (fun c => (c, getCell r c))

/-- Line 67: `df = df[columns_to_keep]`. -/
def projectColumns (t : List RawRow) : List RawRow :=
  t.map projectRow

/-- A structured view of a projected row (the thirteen kept columns). -/
structure Obs where
  date : Int
  location : String
  total_cases : EVal
  new_cases : EVal
  total_deaths : EVal
  new_deaths : EVal
  total_vaccinations : EVal
  people_vaccinated : EVal
  people_fully_vaccinated : EVal
  population : EVal
  population_density : EVal
  median_age : EVal
  gdp_per_capita : EVal
deriving DecidableEq, Repr

/-- Reading a projected row into its structured view. -/
def toObs (r : RawRow) : Obs :=
  { date := (getCell r "date").asDate
    location := (getCell r "location").asStr
    total_cases := (getCell r "total_cases").asVal
    new_cases := (getCell r "new_cases").asVal
    total_deaths := (getCell r "total_deaths").asVal
    new_deaths := (getCell r "new_deaths").asVal
    total_vaccinations := (getCell r "total_vaccinations").asVal
    people_vaccinated := (getCell r "people_vaccinated").asVal
    people_fully_vaccinated := (getCell r "people_fully_vaccinated").asVal
    population := (getCell r "population").asVal
    population_density := (getCell r "population_density").asVal
    median_age := (getCell r "median_age").asVal
    gdp_per_capita := (getCell r "gdp_per_capita").asVal }

/-- Lines 70-73: `fillna(0)` on exactly the four case/death columns. -/
def fillnaStep (o : Obs) : Obs :=
  { o with
    total_cases := o.total_cases.fillna0
    new_cases := o.new_cases.fillna0
    total_deaths := o.total_deaths.fillna0
    new_deaths := o.new_deaths.fillna0 }

/-- A row after metric derivation: the thirteen kept columns plus the two
derived metrics. -/
structure DRow extends Obs where
  case_fatality_rate : EVal
  vaccination_rate : EVal
deriving DecidableEq, Repr

/-- Lines 76-77: the two derived metrics,
`(total_deaths / total_cases) * 100` and
`(people_vaccinated / population) * 100`, elementwise. -/
def deriveRow (o : Obs) : DRow :=
  { toObs := o
    case_fatality_rate := (o.total_deaths.div o.total_cases).mul (EVal.num 100)
    vaccination_rate := (o.people_vaccinated.div o.population).mul (EVal.num 100) }

/-- Strict lexicographic comparison of two character lists by code point;
this is how Python (hence pandas `sort_values` on an object column)
compares strings. -/
def charListLt : List Char → List Char → Bool
  | _, [] => false
  | [], _ :: _ => true
  | a :: as, b :: bs =>
      if a.val.toNat < b.val.toNat then true
      else if b.val.toNat < a.val.toNat then false
      else charListLt as bs

/-- Strict code-point order on strings. -/
def strLt (a b : String) : Bool :=
  charListLt a.data b.data

theorem charListLt_trans : ∀ {as bs cs : List Char},
    charListLt as bs = true → charListLt bs cs = true → charListLt as cs = true := by
  intro as
  induction as with
  | nil =>
      intro bs cs h₁ h₂
      cases cs with
      | nil =>
          cases bs with
          | nil => simp [charListLt] at h₁
          | cons b bs => simp [charListLt] at h₂
      | cons c cs => simp [charListLt]
  | cons a as ih =>
      intro bs cs h₁ h₂
      cases bs with
      | nil => simp [charListLt] at h₁
      | cons b bs =>
          cases cs with
          | nil => simp [charListLt] at h₂
          | cons c cs =>
              simp only [charListLt] at h₁ h₂ ⊢
              rcases Nat.lt_trichotomy a.val.toNat b.val.toNat with hab | hab | hab
              · rcases Nat.lt_trichotomy b.val.toNat c.val.toNat with hbc | hbc | hbc
                · simp [hab.trans hbc]
                · simp [hbc ▸ hab]
                · simp [Nat.lt_asymm hbc, hbc] at h₂
              · rcases Nat.lt_trichotomy b.val.toNat c.val.toNat with hbc | hbc | hbc
                · simp [hab ▸ hbc]
                · have h₁h : charListLt as bs = true := by
                    simpa [hab, lt_self_iff_false] using h₁
                  have h₂h : charListLt bs cs = true := by
                    simpa [hbc, lt_self_iff_false] using h₂
                  simp [hab.trans hbc, lt_self_iff_false, ih h₁h h₂h]
                · simp [Nat.lt_asymm hbc, hbc] at h₂
              · simp [Nat.lt_asymm hab, hab] at h₁

theorem charListLt_connex : ∀ (as bs : List Char),
    charListLt as bs = true ∨ charListLt bs as = true ∨ as = bs := by
  intro as
  induction as with
  | nil =>
      intro bs
      cases bs with
      | nil => exact Or.inr (Or.inr rfl)
      | cons b bs => exact Or.inl rfl
  | cons a as ih =>
      intro bs
      cases bs with
      | nil => exact Or.inr (Or.inl rfl)
      | cons b bs =>
          rcases Nat.lt_trichotomy a.val.toNat b.val.toNat with h | h | h
          · exact Or.inl (by simp [charListLt, h])
          · have hab : a = b := Char.ext (UInt32.ext h)
            rcases ih bs with h₂ | h₂ | h₂
            · exact Or.inl (by simp [charListLt, h, lt_self_iff_false, hab, h₂])
            · exact Or.inr (Or.inl (by simp [charListLt, h.symm, lt_self_iff_false, hab, h₂]))
            · exact Or.inr (Or.inr (by rw [hab, h₂]))
          · exact Or.inr (Or.inl (by simp [charListLt, h, Nat.lt_asymm h]))

/-- The comparison of `df.sort_values(['location', 'date'])`: lexicographic
on (location, date). -/
def rowLE (a b : DRow) : Prop :=
  strLt a.location b.location = true ∨ (a.location = b.location ∧ a.date ≤ b.date)

instance : DecidableRel rowLE := fun a b => by
  unfold rowLE; infer_instance

instance : IsTrans DRow rowLE :=
  ⟨by
    rintro a b c (hab | ⟨hab, dab⟩) (hbc | ⟨hbc, dbc⟩)
    · exact Or.inl (charListLt_trans hab hbc)
    · exact Or.inl (hbc ▸ hab)
    · exact Or.inl (hab ▸ hbc)
    · exact Or.inr ⟨hab.trans hbc, le_trans dab dbc⟩⟩

instance : IsTotal DRow rowLE :=
  ⟨by
    intro a b
    rcases charListLt_connex a.location.data b.location.data with h | h | h
    · exact Or.inl (Or.inl h)
    · exact Or.inr (Or.inl h)
    · have hl : a.location = b.location := by
        cases hal : a.location with
        | mk da =>
            cases hbl : b.location with
            | mk db =>
                simp only [hal, hbl] at h
                exact congrArg String.mk h
      rcases Int.le_total a.date b.date with hd | hd
      · exact Or.inl (Or.inr ⟨hl, hd⟩)
      · exact Or.inr (Or.inr ⟨hl.symm, hd⟩)⟩

/-- Line 80: `df = df.sort_values(['location', 'date'])`: a sort of the
rows by the lexicographic key (row order among duplicate keys is not
specified by the contract). -/
def sortTable (t : List DRow) : List DRow :=
  List.insertionSort rowLE t

/-- Lines 55-80, the in-scope pipeline on the raw table: filter rows to the
entity whitelist, project to the column whitelist, fill the four case/death
columns, derive the two metrics, sort by (location, date). -/
def cleanTable (raw : List RawRow) : List DRow :=
  sortTable ((((projectColumns (filterCountries raw)).map toObs).map fillnaStep).map deriveRow)

/-- Line 205: `latest_date = df['date'].max()` (junk 0 on an empty table). -/
def latestDate (t : List DRow) : Int :=
  ((t.map (fun r => r.date)).max?).getD 0

/-- Line 130: `latest_data = df[df['date'] == df['date'].max()]`. -/
def latestData (t : List DRow) : List DRow :=
  t.filter (fun r => decide (r.date = latestDate t))

/-- The group keys of `df.groupby('location')`: the distinct locations. -/
def locationsOf (t : List DRow) : List String :=
  (t.map (fun r => r.location)).dedup

/-- The column values of one location group. -/
def groupVals (f : DRow → EVal) (t : List DRow) (loc : String) : List EVal :=
  (t.filter (fun r => decide (r.location = loc))).map f

/-- One group's `.max()`: NaN-skipping maximum (NaN on an empty or
all-NaN group). -/
def groupMax (f : DRow → EVal) (t : List DRow) (loc : String) : EVal :=
  (groupVals f t loc).foldl EVal.nmax EVal.nan

/-- A pandas `.sum()` with its default `skipna=True`: NaN entries are
skipped, the empty sum is 0. -/
def sumSkipna (l : List EVal) : EVal :=
  (l.filter (fun v => decide (v ≠ EVal.nan))).foldl EVal.add (EVal.num 0)

/-- Line 206: `df.groupby('location')['total_cases'].max().sum() / 1e6`.
The order in which groups are summed does not affect the sum. -/
def total_cases_world (t : List DRow) : EVal :=
  (sumSkipna ((locationsOf t).map (groupMax (fun r => r.total_cases) t))).div
    (EVal.num 1000000)

/-- Line 207: `df.groupby('location')['total_deaths'].max().sum() / 1e3`. -/
def total_deaths_world (t : List DRow) : EVal :=
  (sumSkipna ((locationsOf t).map (groupMax (fun r => r.total_deaths) t))).div
    (EVal.num 1000)

/-- The position `Series.idxmax()` returns: the first index whose value is
maximal among the non-NaN values, none when every value is NaN. -/
def idxmax (f : α → EVal) (l : List α) : Option Nat :=
  (l.enum.foldl
    (fun acc iv =>
      let v := f iv.2
      if v = EVal.nan then acc
      else
        match acc with
        | none => some (iv.1, v)
        | some jw => if EVal.lt jw.2 v then some (iv.1, v) else some jw)
    none).map Prod.fst

/-- Line 214: `latest_data.loc[latest_data['vaccination_rate'].idxmax()]`.
With every value NaN, pandas `idxmax` raises ValueError — an unhandled
exception, modelled as the error branch. -/
def mostVaccinated (latest : List DRow) : Except PyError DRow :=
  match idxmax (fun r => r.vaccination_rate) latest with
  | some i =>
      match latest.get? i with
      | some r => Except.ok r
      | none => Except.error PyError.valueError
  | none => Except.error PyError.valueError

/-- Line 218: `latest_data.loc[latest_data['case_fatality_rate'].idxmax()]`. -/
def highestFatality (latest : List DRow) : Except PyError DRow :=
  match idxmax (fun r => r.case_fatality_rate) latest with
  | some i =>
      match latest.get? i with
      | some r => Except.ok r
      | none => Except.error PyError.valueError
  | none => Except.error PyError.valueError

/-- Lines 222-225: `df[df['total_cases'] > 0].groupby('location')['date'].min()`,
as the association list from location to its earliest positive-cases date. -/
def firstCases (t : List DRow) : List (String × Int) :=
  (locationsOf (t.filter (fun r => EVal.gtZero r.total_cases))).map (fun loc =>
    (loc, ((((t.filter (fun r => EVal.gtZero r.total_cases)).filter
        (fun r => decide (r.location = loc))).map (fun r => r.date)).min?).getD 0))

/-- Line 224 for one entity: `(latest_date - date).days` when the entity
appears in `first_cases`, undefined otherwise. -/
def daysReporting (t : List DRow) (loc : String) : Option Int :=
  ((firstCases t).lookup loc).map (fun d => latestDate t - d)

/-- The record the key-insights cell (lines 204-225) would print. -/
structure KeyInsights where
  latest : Int
  casesWorld : EVal
  deathsWorld : EVal
  mostVacc : DRow
  mostFatal : DRow
  firstCaseDates : List (String × Int)
deriving DecidableEq, Repr

/-- The key-insights cell as one sequential computation: an unhandled
exception in an earlier statement (such as `idxmax` on an all-NaN column at
line 214) aborts every later statement of the cell, so the fatality and
days-reporting insights are never produced. -/
def keyInsightsCell (t : List DRow) : Except PyError KeyInsights := do
  let mv ← mostVaccinated (latestData t)
  let hf ← highestFatality (latestData t)
  pure
    { latest := latestDate t
      casesWorld := total_cases_world t
      deathsWorld := total_deaths_world t
      mostVacc := mv
      mostFatal := hf
      firstCaseDates := firstCases t }

/-- Line 32: `pd.read_csv('data/owid-covid-data.csv')`; a missing file
raises FileNotFoundError. The source is the table when present. -/
def read_csv (src : Option (List RawRow)) : Except PyError (List RawRow) :=
  match src with
  | some t => Except.ok t
  | none => Except.error PyError.fileNotFound

/-- Lines 31-35: the try/except block. The handler only prints a message,
so execution falls through either way; the name `df` is bound only when
the read succeeded. -/
def loadTry (src : Option (List RawRow)) : Option (List RawRow) :=
  match read_csv src with
  | Except.ok t => some t
  | Except.error _ => none

/-- Line 38: `print(df.shape)` runs unconditionally after the try/except;
it evaluates `df`, raising NameError when the read failed and `df` was
never bound. -/
def displayBasicInfo (df : Option (List RawRow)) : Except PyError (List RawRow) :=
  match df with
  | some t => Except.ok t
  | none => Except.error PyError.nameError

/-- Lines 31-38 as one stage: the load cell up to and including the first
statement that assumes the table exists. -/
def loadStage (src : Option (List RawRow)) : Except PyError (List RawRow) :=
  displayBasicInfo (loadTry src)

/-- The per-row composite of the cleaning and derivation stages
(lines 67-77): project, fill the four case/death columns, derive the two
metrics.  `cleanTable` is the sorted map of this over the kept rows. -/
def cleanRow (r : RawRow) : DRow :=
  deriveRow (fillnaStep (toObs (projectRow r)))

/-- Example raw row: cumulative cases absent (so filled to 0 by cleaning)
while two cumulative deaths are recorded. -/
def exInfRow : RawRow :=
  [("date", Cell.date (Int.ofNat (toDay 2021 1 1))), ("location", Cell.str "Kenya"),
   ("total_cases", Cell.val EVal.nan), ("total_deaths", Cell.val (EVal.num 2))]

/-- Example raw row: the 0-cases/0-deaths row of the two-row scenario (the
entity name is taken from the whitelist so the row survives the country
filter). -/
def exZeroRow : RawRow :=
  [("date", Cell.date (Int.ofNat (toDay 2021 1 1))), ("location", Cell.str "Kenya"),
   ("total_cases", Cell.val (EVal.num 0)), ("total_deaths", Cell.val (EVal.num 0))]

/-- Example raw row: the 100-cases/2-deaths row of the two-row scenario. -/
def exHundredRow : RawRow :=
  [("date", Cell.date (Int.ofNat (toDay 2021 1 2))), ("location", Cell.str "Kenya"),
   ("total_cases", Cell.val (EVal.num 100)), ("total_deaths", Cell.val (EVal.num 2))]

/-- Example raw row: population 1000 with 250 people vaccinated. -/
def exVaccRow : RawRow :=
  [("date", Cell.date 5), ("location", Cell.str "Kenya"),
   ("people_vaccinated", Cell.val (EVal.num 250)),
   ("population", Cell.val (EVal.num 1000))]

/-- Example raw rows with a non-monotone cumulative count for one entity
and no vaccination data anywhere. -/
def exAggA1 : RawRow :=
  [("date", Cell.date 1), ("location", Cell.str "Kenya"),
   ("total_cases", Cell.val (EVal.num 5)), ("total_deaths", Cell.val (EVal.num 1))]

/-- Second Kenya row of the aggregate example (cases drop from 5 to 3). -/
def exAggA2 : RawRow :=
  [("date", Cell.date 2), ("location", Cell.str "Kenya"),
   ("total_cases", Cell.val (EVal.num 3)), ("total_deaths", Cell.val (EVal.num 0))]

/-- Germany row of the aggregate example. -/
def exAggB1 : RawRow :=
  [("date", Cell.date 2), ("location", Cell.str "Germany"),
   ("total_cases", Cell.val (EVal.num 7)), ("total_deaths", Cell.val (EVal.num 2))]

/-- The aggregate example table. -/
def exAggT : List DRow :=
  cleanTable [exAggA1, exAggA2, exAggB1]

/-- Days-reporting example: Kenya before its first case. -/
def exRepK1 : RawRow :=
  [("date", Cell.date (Int.ofNat (toDay 2020 2 15))), ("location", Cell.str "Kenya"),
   ("total_cases", Cell.val (EVal.num 0))]

/-- Days-reporting example: Kenya first crosses zero on 2020-03-01. -/
def exRepK2 : RawRow :=
  [("date", Cell.date (Int.ofNat (toDay 2020 3 1))), ("location", Cell.str "Kenya"),
   ("total_cases", Cell.val (EVal.num 10))]

/-- Days-reporting example: Germany reporting on the latest date
2020-04-10. -/
def exRepG1 : RawRow :=
  [("date", Cell.date (Int.ofNat (toDay 2020 4 10))), ("location", Cell.str "Germany"),
   ("total_cases", Cell.val (EVal.num 5))]

/-- The days-reporting example table. -/
def exRepT : List DRow :=
  cleanTable [exRepK1, exRepK2, exRepG1]

/-- Maximum of a list of rationals (junk 0 on the empty list; only used on
nonempty group value lists). -/
def listMaxQ : List ℚ → ℚ
  | [] => 0
  | a :: l => l.foldl max a

/-- The finite values of one location group, as rationals. -/
def groupValsQ (f : DRow → EVal) (t : List DRow) (loc : String) : List ℚ :=
  (groupVals f t loc).map EVal.toQ

/-! ### Helper lemmas about the pipeline -/

theorem EVal.fillna0_ne_nan (v : EVal) : v.fillna0 ≠ EVal.nan := by
  cases v <;> simp [EVal.fillna0]

/-- A row is in the cleaned table exactly when it is the cleaning of some
whitelisted raw row. -/
theorem mem_cleanTable {raw : List RawRow} {r : DRow} :
    r ∈ cleanTable raw ↔
      ∃ rr, rr ∈ filterCountries raw ∧ r = cleanRow rr := by
  unfold cleanTable sortTable cleanRow
  rw [(List.perm_insertionSort rowLE _).mem_iff]
  simp only [projectColumns, List.map_map, List.mem_map, Function.comp]
  constructor
  · rintro ⟨rr, hrr, heq⟩
    exact ⟨rr, hrr, heq.symm⟩
  · rintro ⟨rr, hrr, heq⟩
    exact ⟨rr, hrr, heq.symm⟩

/-- Case analysis of the derived `case_fatality_rate` of a row whose
cleaned counts are finite: NaN exactly on the 0/0 indeterminate form, a
positive infinity on deaths over zero cases, the ordinary ratio times 100
otherwise. -/
theorem cfr_spec (o : Obs) (c d : ℚ) (hc : o.total_cases = EVal.num c)
    (hd : o.total_deaths = EVal.num d) :
    ((deriveRow o).case_fatality_rate = EVal.nan ↔ c = 0 ∧ d = 0) ∧
    (c = 0 → 0 < d → (deriveRow o).case_fatality_rate = EVal.pinf) ∧
    (c ≠ 0 → (deriveRow o).case_fatality_rate = EVal.num (d / c * 100)) := by
  have hcf : (deriveRow o).case_fatality_rate
      = ((EVal.num d).div (EVal.num c)).mul (EVal.num 100) := by
    simp [deriveRow, hc, hd]
  rcases eq_or_ne c 0 with h0 | h0
  · subst h0
    rcases lt_trichotomy d 0 with hdlt | hdeq | hdgt
    · have : (deriveRow o).case_fatality_rate = EVal.ninf := by
        rw [hcf]
        simp [EVal.div, EVal.mul, hdlt.ne, not_lt.mpr (le_of_lt hdlt)]
      refine ⟨?_, ?_, ?_⟩
      · rw [this]; simp [hdlt.ne]
      · intro _ hpos; exact absurd (hpos.trans hdlt) (lt_irrefl 0)
      · intro hne; exact absurd rfl hne
    · subst hdeq
      have : (deriveRow o).case_fatality_rate = EVal.nan := by
        rw [hcf]; simp [EVal.div, EVal.mul]
      refine ⟨?_, ?_, ?_⟩
      · rw [this]; simp
      · intro _ hpos; exact absurd hpos (lt_irrefl 0)
      · intro hne; exact absurd rfl hne
    · have : (deriveRow o).case_fatality_rate = EVal.pinf := by
        rw [hcf]
        simp [EVal.div, EVal.mul, hdgt.ne.symm, hdgt]
      refine ⟨?_, ?_, ?_⟩
      · rw [this]; simp [hdgt.ne.symm]
      · intro _ _; exact this
      · intro hne; exact absurd rfl hne
  · have : (deriveRow o).case_fatality_rate = EVal.num (d / c * 100) := by
      rw [hcf]
      simp [EVal.div, EVal.mul, h0, ratDiv_eq, ratMul_eq]
    refine ⟨?_, ?_, ?_⟩
    · rw [this]; simp [h0]
    · intro h; exact absurd h h0
    · intro _; exact this

/-- A left fold of `max` yields its start value or a list element. -/
theorem foldl_max_cases {α : Type} [LinearOrder α] :
    ∀ (l : List α) (a : α), l.foldl max a = a ∨ l.foldl max a ∈ l := by
  intro l
  induction l with
  | nil => intro a; exact Or.inl rfl
  | cons b l ih =>
      intro a
      rcases ih (max a b) with h | h
      · rcases max_choice a b with hm | hm
        · exact Or.inl (by rw [List.foldl_cons, h, hm])
        · exact Or.inr (by rw [List.foldl_cons, h, hm]; exact List.mem_cons_self b l)
      · exact Or.inr (List.mem_cons_of_mem b h)

/-- A left fold of `max` bounds its start value and every list element. -/
theorem le_foldl_max {α : Type} [LinearOrder α] :
    ∀ (l : List α) (a : α), a ≤ l.foldl max a ∧ ∀ x ∈ l, x ≤ l.foldl max a := by
  intro l
  induction l with
  | nil => intro a; exact ⟨le_refl a, by intro x hx; cases hx⟩
  | cons b l ih =>
      intro a
      refine ⟨le_trans (le_max_left a b) (ih (max a b)).1, ?_⟩
      intro x hx
      rcases List.mem_cons.mp hx with rfl | hx
      · exact le_trans (le_max_right a x) (ih (max a x)).1
      · exact (ih (max a b)).2 x hx

/-- A left fold of `min` yields its start value or a list element. -/
theorem foldl_min_cases {α : Type} [LinearOrder α] :
    ∀ (l : List α) (a : α), l.foldl min a = a ∨ l.foldl min a ∈ l := by
  intro l
  induction l with
  | nil => intro a; exact Or.inl rfl
  | cons b l ih =>
      intro a
      rcases ih (min a b) with h | h
      · rcases min_choice a b with hm | hm
        · exact Or.inl (by rw [List.foldl_cons, h, hm])
        · exact Or.inr (by rw [List.foldl_cons, h, hm]; exact List.mem_cons_self b l)
      · exact Or.inr (List.mem_cons_of_mem b h)

/-- A left fold of `min` is below its start value and every list element. -/
theorem foldl_min_le {α : Type} [LinearOrder α] :
    ∀ (l : List α) (a : α), l.foldl min a ≤ a ∧ ∀ x ∈ l, l.foldl min a ≤ x := by
  intro l
  induction l with
  | nil => intro a; exact ⟨le_refl a, by intro x hx; cases hx⟩
  | cons b l ih =>
      intro a
      refine ⟨le_trans (ih (min a b)).1 (min_le_left a b), ?_⟩
      intro x hx
      rcases List.mem_cons.mp hx with rfl | hx
      · exact le_trans (ih (min a x)).1 (min_le_right a x)
      · exact (ih (min a b)).2 x hx

/-- The group keys are exactly the locations occurring in the table. -/
theorem mem_locationsOf {t : List DRow} {loc : String} :
    loc ∈ locationsOf t ↔ ∃ r ∈ t, r.location = loc := by
  unfold locationsOf
  rw [List.mem_dedup, List.mem_map]

/-- Looking a key up in an association list built by pairing each key with
a function of it returns that function value on any listed key. -/
theorem lookup_map_pair {α : Type} :
    ∀ (keys : List String) (g : String → α) (c : String),
      (keys.map (fun k => (k, g k))).lookup c
        = if c ∈ keys then some (g c) else none := by
  intro keys
  induction keys with
  | nil => intro g c; simp
  | cons k ks ih =>
      intro g c
      by_cases h : c = k
      · subst h
        simp [List.lookup]
      · have hbeq : (c == k) = false := beq_eq_false_iff_ne.mpr h
        simp only [List.map_cons, List.lookup, hbeq]
        rw [ih g c]
        simp [List.mem_cons, h]

theorem foldl_nmax_num :
    ∀ (l : List EVal) (q : ℚ), (∀ v ∈ l, v.isNum = true) →
      l.foldl EVal.nmax (EVal.num q)
        = EVal.num (l.foldl (fun acc v => max acc v.toQ) q) := by
  intro l
  induction l with
  | nil => intro q _; rfl
  | cons v vs ih =>
      intro q h
      have hv := h v (List.mem_cons_self v vs)
      cases v with
      | num a =>
          rw [List.foldl_cons, List.foldl_cons]
          exact ih (max q a) (fun w hw => h w (List.mem_cons_of_mem _ hw))
      | nan => simp [EVal.isNum] at hv
      | pinf => simp [EVal.isNum] at hv
      | ninf => simp [EVal.isNum] at hv

theorem foldl_nmax_all_num (l : List EVal) (hne : l ≠ [])
    (h : ∀ v ∈ l, v.isNum = true) :
    l.foldl EVal.nmax EVal.nan = EVal.num (listMaxQ (l.map EVal.toQ)) := by
  cases l with
  | nil => exact absurd rfl hne
  | cons v vs =>
      have hv := h v (List.mem_cons_self v vs)
      cases v with
      | num a =>
          rw [List.foldl_cons]
          show vs.foldl EVal.nmax (EVal.num a) = _
          rw [foldl_nmax_num vs a (fun w hw => h w (List.mem_cons_of_mem _ hw))]
          simp [listMaxQ, EVal.toQ, List.foldl_map]
      | nan => simp [EVal.isNum] at hv
      | pinf => simp [EVal.isNum] at hv
      | ninf => simp [EVal.isNum] at hv

theorem foldl_add_num :
    ∀ (l : List EVal) (q : ℚ), (∀ v ∈ l, v.isNum = true) →
      l.foldl EVal.add (EVal.num q)
        = EVal.num (l.foldl (fun acc v => acc + v.toQ) q) := by
  intro l
  induction l with
  | nil => intro q _; rfl
  | cons v vs ih =>
      intro q h
      have hv := h v (List.mem_cons_self v vs)
      cases v with
      | num a =>
          rw [List.foldl_cons, List.foldl_cons]
          show vs.foldl EVal.add (EVal.num (ratAdd q a)) = _
          rw [ratAdd_eq, ih (q + a) (fun w hw => h w (List.mem_cons_of_mem _ hw))]
          rfl
      | nan => simp [EVal.isNum] at hv
      | pinf => simp [EVal.isNum] at hv
      | ninf => simp [EVal.isNum] at hv

theorem sumSkipna_all_num (l : List EVal) (h : ∀ v ∈ l, v.isNum = true) :
    sumSkipna l = EVal.num ((l.map EVal.toQ).sum) := by
  unfold sumSkipna
  have hfil : l.filter (fun v => decide (v ≠ EVal.nan)) = l := by
    apply List.filter_eq_self.mpr
    intro v hv
    have := h v hv
    cases v <;> simp_all [EVal.isNum]
  rw [hfil, foldl_add_num l 0 h]
  congr 1
  rw [List.sum_eq_foldl, List.foldl_map]

theorem listMaxQ_spec (l : List ℚ) (hne : l ≠ []) :
    listMaxQ l ∈ l ∧ ∀ q ∈ l, q ≤ listMaxQ l := by
  cases l with
  | nil => exact absurd rfl hne
  | cons a l =>
      constructor
      · rcases foldl_max_cases l a with h | h
        · rw [listMaxQ, h]; exact List.mem_cons_self a l
        · exact List.mem_cons_of_mem a h
      · intro q hq
        rcases List.mem_cons.mp hq with rfl | hq
        · exact (le_foldl_max l q).1
        · exact (le_foldl_max l a).2 q hq

theorem minGetD_spec (l : List Int) (hne : l ≠ []) :
    (l.min?.getD 0) ∈ l ∧ ∀ x ∈ l, l.min?.getD 0 ≤ x := by
  cases l with
  | nil => exact absurd rfl hne
  | cons a l =>
      have hmin : (a :: l).min? = some (l.foldl min a) := by
        simp [List.min?]
      rw [hmin]
      constructor
      · rcases foldl_min_cases l a with h | h
        · rw [Option.getD_some, h]; exact List.mem_cons_self a l
        · exact List.mem_cons_of_mem a h
      · intro x hx
        rcases List.mem_cons.mp hx with rfl | hx
        · exact (foldl_min_le l x).1
        · exact (foldl_min_le l a).2 x hx

theorem groupMax_num (f : DRow → EVal) (t : List DRow) (loc : String)
    (hloc : loc ∈ locationsOf t) (h : ∀ r ∈ t, (f r).isNum = true) :
    groupMax f t loc = EVal.num (listMaxQ (groupValsQ f t loc)) := by
  obtain ⟨r, hr, hrl⟩ := mem_locationsOf.mp hloc
  have hne : groupVals f t loc ≠ [] := by
    have hmem : f r ∈ groupVals f t loc := by
      apply List.mem_map_of_mem
      exact List.mem_filter.mpr ⟨hr, by simp [hrl]⟩
    exact List.ne_nil_of_mem hmem
  have hnum : ∀ v ∈ groupVals f t loc, v.isNum = true := by
    intro v hv
    obtain ⟨r2, hr2, rfl⟩ := List.mem_map.mp hv
    exact h r2 (List.mem_filter.mp hr2).1
  unfold groupMax groupValsQ
  exact foldl_nmax_all_num _ hne hnum

theorem groupValsQ_ne_nil (f : DRow → EVal) (t : List DRow) (loc : String)
    (hloc : loc ∈ locationsOf t) : groupValsQ f t loc ≠ [] := by
  obtain ⟨r, hr, hrl⟩ := mem_locationsOf.mp hloc
  have hmem : (f r).toQ ∈ groupValsQ f t loc := by
    apply List.mem_map_of_mem
    apply List.mem_map_of_mem
    exact List.mem_filter.mpr ⟨hr, by simp [hrl]⟩
  exact List.ne_nil_of_mem hmem

/-- The groupby-max-sum-divide composite evaluates, on a table of finite
column values, to the rational sum over groups of the group maxima divided
by the scaling constant. -/
theorem world_sum_spec (f : DRow → EVal) (t : List DRow) (q : ℚ) (hq : q ≠ 0)
    (h : ∀ r ∈ t, (f r).isNum = true) :
    (sumSkipna ((locationsOf t).map (groupMax f t))).div (EVal.num q)
      = EVal.num
        (((locationsOf t).map (fun loc => listMaxQ (groupValsQ f t loc))).sum / q) := by
  have hmap : (locationsOf t).map (groupMax f t)
      = (locationsOf t).map (fun loc => EVal.num (listMaxQ (groupValsQ f t loc))) :=
    List.map_congr_left (fun loc hloc => groupMax_num f t loc hloc h)
  rw [hmap]
  rw [sumSkipna_all_num _ (by rintro v hv; obtain ⟨loc, _, rfl⟩ := List.mem_map.mp hv; rfl)]
  rw [List.map_map]
  have hcomp :
      (EVal.toQ ∘ fun loc => EVal.num (listMaxQ (groupValsQ f t loc)))
        = fun loc => listMaxQ (groupValsQ f t loc) := by
    funext loc; rfl
  rw [hcomp]
  simp [EVal.div, hq, ratDiv_eq]

/-! ### Claims -/

/-- C1 (counterexample): a raw row whose cumulative case count is absent
(hence 0 after cleaning) while two deaths are recorded yields a
`case_fatality_rate` of +inf, a defined non-NaN value, although the row's
cumulative case count is "0 or unknown" — refuting that the rate is
"undefined" exactly on that condition. -/
theorem c1_counterexample :
    (cleanTable [exInfRow]).map (fun r => (r.total_cases, r.case_fatality_rate))
        = [(EVal.num 0, EVal.pinf)] ∧
    (getCell exInfRow "total_cases").asVal = EVal.nan ∧
    EVal.pinf ≠ EVal.nan := by
  refine ⟨by decide, by decide, by decide⟩

/-- C1 (amended): for every row of the cleaned table with finite cleaned
counts, `case_fatality_rate` is the NaN "undefined" marker exactly when the
cleaned cases and the cleaned deaths are both 0; it is +inf on 0 cases with
positive deaths; otherwise it equals 100 × deaths ÷ cases exactly. -/
theorem c1_fatality_rate (raw : List RawRow) :
    ∀ r ∈ cleanTable raw, ∀ c d : ℚ,
      r.total_cases = EVal.num c → r.total_deaths = EVal.num d →
      ((r.case_fatality_rate = EVal.nan ↔ c = 0 ∧ d = 0) ∧
        (c = 0 → 0 < d → r.case_fatality_rate = EVal.pinf) ∧
        (c ≠ 0 → r.case_fatality_rate = EVal.num (d / c * 100))) := by
  intro r hr c d hc hd
  obtain ⟨rr, _, rfl⟩ := mem_cleanTable.mp hr
  exact cfr_spec (fillnaStep (toObs (projectRow rr))) c d hc hd

/-- C1 (witness): the two-row scenario (0 cases/0 deaths on day one, 100
cases/2 deaths on day two, on a whitelisted entity) through
`c1_fatality_rate`: the first row's rate is the undefined marker, the
second row's is 100 × 2 ÷ 100, which evaluates to exactly 2. -/
theorem c1_witness :
    (cleanRow exZeroRow).case_fatality_rate = EVal.nan ∧
    (cleanRow exHundredRow).case_fatality_rate = EVal.num ((2 : ℚ) / 100 * 100) ∧
    (cleanRow exHundredRow).case_fatality_rate = EVal.num 2 := by
  refine ⟨?_, ?_, ?_⟩
  · exact ((c1_fatality_rate [exZeroRow, exHundredRow] (cleanRow exZeroRow) (by decide)
      0 0 (by decide) (by decide)).1).mpr ⟨rfl, rfl⟩
  · exact (c1_fatality_rate [exZeroRow, exHundredRow] (cleanRow exHundredRow) (by decide)
      100 2 (by decide) (by decide)).2.2 (by decide)
  · decide

/-- C2: after the cleaning stage the four case/death fields are never the
missing marker; the fill step changes no other field, so every other
numeric field stays "unknown" when absent; and an unknown operand
propagates to an unknown `vaccination_rate` instead of being coerced
to 0. -/
theorem c2_fillna_scope :
    (∀ (raw : List RawRow), ∀ r ∈ cleanTable raw,
        r.total_cases ≠ EVal.nan ∧ r.new_cases ≠ EVal.nan ∧
        r.total_deaths ≠ EVal.nan ∧ r.new_deaths ≠ EVal.nan) ∧
    (∀ o : Obs,
        (fillnaStep o).total_vaccinations = o.total_vaccinations ∧
        (fillnaStep o).people_vaccinated = o.people_vaccinated ∧
        (fillnaStep o).people_fully_vaccinated = o.people_fully_vaccinated ∧
        (fillnaStep o).population = o.population ∧
        (fillnaStep o).population_density = o.population_density ∧
        (fillnaStep o).median_age = o.median_age ∧
        (fillnaStep o).gdp_per_capita = o.gdp_per_capita ∧
        (fillnaStep o).date = o.date ∧
        (fillnaStep o).location = o.location) ∧
    (∀ o : Obs, (o.people_vaccinated = EVal.nan ∨ o.population = EVal.nan) →
        (deriveRow o).vaccination_rate = EVal.nan) := by
  refine ⟨?_, ?_, ?_⟩
  · intro raw r hr
    obtain ⟨rr, _, rfl⟩ := mem_cleanTable.mp hr
    exact ⟨EVal.fillna0_ne_nan _, EVal.fillna0_ne_nan _,
      EVal.fillna0_ne_nan _, EVal.fillna0_ne_nan _⟩
  · intro o
    exact ⟨rfl, rfl, rfl, rfl, rfl, rfl, rfl, rfl, rfl⟩
  · intro o h
    have hvr : (deriveRow o).vaccination_rate
        = (o.people_vaccinated.div o.population).mul (EVal.num 100) := rfl
    rcases h with h | h
    · rw [hvr, h]; cases o.population <;> rfl
    · rw [hvr, h]; cases o.people_vaccinated <;> rfl

/-- C2 (witness): on the concrete example rows, the cleaned case count of
a row with absent cases is a number, not the marker, and a row without
vaccination data derives an unknown `vaccination_rate`. -/
theorem c2_witness :
    ((cleanRow exInfRow).total_cases ≠ EVal.nan ∧
      (cleanRow exInfRow).new_cases ≠ EVal.nan ∧
      (cleanRow exInfRow).total_deaths ≠ EVal.nan ∧
      (cleanRow exInfRow).new_deaths ≠ EVal.nan) ∧
    (deriveRow (fillnaStep (toObs (projectRow exAggA1)))).vaccination_rate
      = EVal.nan :=
  ⟨c2_fillna_scope.1 [exInfRow] (cleanRow exInfRow) (by decide),
   c2_fillna_scope.2.2 (fillnaStep (toObs (projectRow exAggA1))) (Or.inl (by decide))⟩

/-- C3: the metric deriver is a pure per-row map — the row at any position
of its output is determined by the row at the same position of its input,
it commutes with any permutation of the rows, and on a row with population
1000 and 250 people vaccinated the derived `vaccination_rate` is 25. -/
theorem c3_row_local :
    (∀ (t : List Obs) (i : Nat),
        (t.map deriveRow)[i]? = (t[i]?).map deriveRow) ∧
    (∀ t₁ t₂ : List Obs, t₁.Perm t₂ → (t₁.map deriveRow).Perm (t₂.map deriveRow)) ∧
    (∀ o : Obs, o.population = EVal.num 1000 → o.people_vaccinated = EVal.num 250 →
        (deriveRow o).vaccination_rate = EVal.num 25) := by
  refine ⟨?_, ?_, ?_⟩
  · intro t i
    exact List.getElem?_map deriveRow t i
  · intro t₁ t₂ h
    exact h.map deriveRow
  · intro o h1 h2
    have hvr : (deriveRow o).vaccination_rate
        = (o.people_vaccinated.div o.population).mul (EVal.num 100) := rfl
    rw [hvr, h1, h2]
    decide

/-- C3 (witness): the three parts of `c3_row_local` at the concrete
vaccination example (population 1000, 250 vaccinated ⇒ rate 25). -/
theorem c3_witness :
    (([toObs (projectRow exVaccRow)].map deriveRow)[0]?
        = (([toObs (projectRow exVaccRow)])[0]?).map deriveRow) ∧
    (([toObs (projectRow exVaccRow)].map deriveRow).Perm
        ([toObs (projectRow exVaccRow)].map deriveRow)) ∧
    (deriveRow (fillnaStep (toObs (projectRow exVaccRow)))).vaccination_rate
      = EVal.num 25 :=
  ⟨c3_row_local.1 [toObs (projectRow exVaccRow)] 0,
   c3_row_local.2.1 _ _ (List.Perm.refl _),
   c3_row_local.2.2 (fillnaStep (toObs (projectRow exVaccRow))) (by decide) (by decide)⟩

/-- C4: on any table whose cumulative case and death columns are finite
(as every cleaned table's are), the aggregate insights are exactly the sum
over the distinct entities of each entity's maximum column value across
its full history, divided by the display scaling constant; the summand of
each entity is a member of and an upper bound on that entity's value list.
No monotonicity of the cumulative counters is assumed. -/
theorem c4_aggregates (t : List DRow)
    (h : ∀ r ∈ t, (r.total_cases).isNum = true ∧ (r.total_deaths).isNum = true) :
    (total_cases_world t
        = EVal.num
          (((locationsOf t).map
              (fun loc => listMaxQ (groupValsQ (fun r => r.total_cases) t loc))).sum
            / 1000000)) ∧
    (total_deaths_world t
        = EVal.num
          (((locationsOf t).map
              (fun loc => listMaxQ (groupValsQ (fun r => r.total_deaths) t loc))).sum
            / 1000)) ∧
    (∀ loc ∈ locationsOf t,
        (listMaxQ (groupValsQ (fun r => r.total_cases) t loc)
            ∈ groupValsQ (fun r => r.total_cases) t loc ∧
          ∀ q ∈ groupValsQ (fun r => r.total_cases) t loc,
            q ≤ listMaxQ (groupValsQ (fun r => r.total_cases) t loc)) ∧
        (listMaxQ (groupValsQ (fun r => r.total_deaths) t loc)
            ∈ groupValsQ (fun r => r.total_deaths) t loc ∧
          ∀ q ∈ groupValsQ (fun r => r.total_deaths) t loc,
            q ≤ listMaxQ (groupValsQ (fun r => r.total_deaths) t loc))) := by
  refine ⟨?_, ?_, ?_⟩
  · unfold total_cases_world
    exact world_sum_spec _ t 1000000 (by norm_num) (fun r hr => (h r hr).1)
  · unfold total_deaths_world
    exact world_sum_spec _ t 1000 (by norm_num) (fun r hr => (h r hr).2)
  · intro loc hloc
    exact ⟨listMaxQ_spec _ (groupValsQ_ne_nil _ t loc hloc),
      listMaxQ_spec _ (groupValsQ_ne_nil _ t loc hloc)⟩

/-- C4 (witness): on the concrete table with a non-monotone Kenya history
(cases 5 then 3) and Germany at 7, the aggregate is (5 + 7) / 10⁶ and the
death aggregate (1 + 2) / 10³, via `c4_aggregates` and direct
evaluation. -/
theorem c4_witness :
    (total_cases_world exAggT
        = EVal.num
          (((locationsOf exAggT).map
              (fun loc => listMaxQ (groupValsQ (fun r => r.total_cases) exAggT loc))).sum
            / 1000000)) ∧
    total_cases_world exAggT = EVal.num (mkRat 3 250000) ∧
    total_deaths_world exAggT = EVal.num (mkRat 3 1000) :=
  ⟨(c4_aggregates exAggT (by decide)).1, by decide, by decide⟩

/-- C5: on the concrete latest snapshot in which every row's
`vaccination_rate` is the NaN marker, the source's `idxmax`-based
extremal insight raises ValueError (an unhandled exception, not the
defined `NoValidRow` error the specification requires), and because the
key-insights cell is one sequential block, that exception also aborts the
unrelated fatality and days-reporting insights of the same cell. -/
theorem c5_idxmax_crash :
    (latestData exAggT).map (fun r => r.vaccination_rate) = [EVal.nan, EVal.nan] ∧
    mostVaccinated (latestData exAggT) = Except.error PyError.valueError ∧
    keyInsightsCell exAggT = Except.error PyError.valueError :=
  ⟨by decide, by decide, by decide⟩

/-- C6: `days_reporting` is defined for an entity exactly when some row of
that entity has a cumulative case count over zero; when defined it equals
the latest date of the table minus the earliest date at which the entity's
count exceeds zero (an entity that never crosses zero is simply absent —
neither reported as zero nor as an error). -/
theorem c6_days_reporting (t : List DRow) (loc : String) :
    ((daysReporting t loc).isSome
        ↔ ∃ r ∈ t, r.location = loc ∧ EVal.gtZero r.total_cases = true) ∧
    (∀ z : Int, daysReporting t loc = some z →
        ∃ d : Int, z = latestDate t - d ∧
          (∃ r ∈ t, r.location = loc ∧ EVal.gtZero r.total_cases = true ∧ r.date = d) ∧
          (∀ r ∈ t, r.location = loc → EVal.gtZero r.total_cases = true →
            d ≤ r.date)) := by
  have hlk : (firstCases t).lookup loc
      = if loc ∈ locationsOf (t.filter (fun r => EVal.gtZero r.total_cases))
        then some (((((t.filter (fun r => EVal.gtZero r.total_cases)).filter
            (fun r => decide (r.location = loc))).map (fun r => r.date)).min?).getD 0)
        else none := by
    unfold firstCases
    exact lookup_map_pair _ _ _
  have hday : daysReporting t loc = ((firstCases t).lookup loc).map
      (fun d => latestDate t - d) := rfl
  by_cases hin : loc ∈ locationsOf (t.filter (fun r => EVal.gtZero r.total_cases))
  · obtain ⟨r0, hr0, hr0l⟩ := mem_locationsOf.mp hin
    obtain ⟨hr0t, hr0gt⟩ := List.mem_filter.mp hr0
    have hne : ((t.filter (fun r => EVal.gtZero r.total_cases)).filter
        (fun r => decide (r.location = loc))).map (fun r => r.date) ≠ [] := by
      apply List.ne_nil_of_mem
      show r0.date ∈ _
      apply List.mem_map_of_mem
      exact List.mem_filter.mpr ⟨hr0, by simp [hr0l]⟩
    obtain ⟨hdmem, hdub⟩ := minGetD_spec _ hne
    constructor
    · rw [hday, hlk, if_pos hin]
      exact ⟨fun _ => ⟨r0, hr0t, hr0l, hr0gt⟩, fun _ => rfl⟩
    · intro z hz
      rw [hday, hlk, if_pos hin] at hz
      have hz2 := Option.some.inj hz
      refine ⟨_, hz2.symm, ?_, ?_⟩
      · obtain ⟨r1, hr1, hr1d⟩ := List.mem_map.mp hdmem
        obtain ⟨hr1pos, hr1loc⟩ := List.mem_filter.mp hr1
        obtain ⟨hr1t, hr1gt⟩ := List.mem_filter.mp hr1pos
        exact ⟨r1, hr1t, by simpa using hr1loc, hr1gt, hr1d⟩
      · intro r hrt hrl hrgt
        apply hdub
        apply List.mem_map_of_mem
        exact List.mem_filter.mpr ⟨List.mem_filter.mpr ⟨hrt, hrgt⟩, by simp [hrl]⟩
  · constructor
    · rw [hday, hlk, if_neg hin]
      constructor
      · intro h
        simp at h
      · rintro ⟨r, hrt, hrl, hrgt⟩
        exact absurd (mem_locationsOf.mpr ⟨r, List.mem_filter.mpr ⟨hrt, hrgt⟩, hrl⟩) hin
    · intro z hz
      rw [hday, hlk, if_neg hin] at hz
      simp at hz

/-- C6 (witness): Kenya first crosses zero cases on 2020-03-01 and the
latest date of the table is 2020-04-10, so `days_reporting` is 40, with
the declarative first-crossing facts from `c6_days_reporting`; an entity
with no positive count (the two-row variant) gets no entry at all. -/
theorem c6_witness :
    daysReporting exRepT "Kenya" = some 40 ∧
    (∃ d : Int, (40 : Int) = latestDate exRepT - d ∧
      (∃ r ∈ exRepT, r.location = "Kenya" ∧ EVal.gtZero r.total_cases = true ∧
        r.date = d) ∧
      (∀ r ∈ exRepT, r.location = "Kenya" → EVal.gtZero r.total_cases = true →
        d ≤ r.date)) ∧
    daysReporting (cleanTable [exRepK1, exRepG1]) "Kenya" = none :=
  ⟨by decide, (c6_days_reporting exRepT "Kenya").2 40 (by decide), by decide⟩

/-- C7: with the input file absent, the loader's read raises
FileNotFoundError, but the handler only prints and execution falls
through with the table unbound, so the run proceeds into the very next
statement that assumes the table exists and dies there with NameError —
not with the DataSourceNotFound condition the specification requires. -/
theorem c7_missing_file :
    read_csv none = Except.error PyError.fileNotFound ∧
    loadTry none = none ∧
    loadStage none = Except.error PyError.nameError :=
  ⟨rfl, rfl, rfl⟩

/-- C8: the cleaned table is sorted by (location ascending, date
ascending); the metric deriver preserves the (location, date) key sequence
of any table; and the only later row-selection over the table (the latest
snapshot) preserves sortedness. -/
theorem c8_sorted_pipeline (raw : List RawRow) :
    (cleanTable raw).Pairwise rowLE ∧
    (∀ t : List Obs,
        (t.map deriveRow).map (fun r => (r.location, r.date))
          = t.map (fun o => (o.location, o.date))) ∧
    (∀ t : List DRow, t.Pairwise rowLE → (latestData t).Pairwise rowLE) := by
  refine ⟨?_, ?_, ?_⟩
  · exact List.sorted_insertionSort rowLE _
  · intro t
    rw [List.map_map]
    exact List.map_congr_left (fun o _ => rfl)
  · intro t ht
    exact ht.sublist (List.filter_sublist t)

/-- C8 (witness): `c8_sorted_pipeline` at the concrete three-row example:
the cleaned table is sorted and its (sorted) latest snapshot stays
sorted. -/
theorem c8_witness :
    (cleanTable [exAggA1, exAggA2, exAggB1]).Pairwise rowLE ∧
    (latestData exAggT).Pairwise rowLE :=
  ⟨(c8_sorted_pipeline [exAggA1, exAggA2, exAggB1]).1,
   (c8_sorted_pipeline [exAggA1, exAggA2, exAggB1]).2.2 exAggT
     (c8_sorted_pipeline [exAggA1, exAggA2, exAggB1]).1⟩

/-- C9: the country filter keeps exactly the rows whose location is in the
whitelist; the projection keeps every such row (same row count), rebuilds
each row with exactly the whitelisted column names in the whitelisted
order, and each kept column holds the value it had in the source row. -/
theorem c9_filter_project (raw : List RawRow) :
    (∀ r : RawRow, r ∈ filterCountries raw
        ↔ r ∈ raw ∧ (getCell r "location").asStr ∈ countries_to_include) ∧
    ((projectColumns (filterCountries raw)).length = (filterCountries raw).length) ∧
    (∀ r ∈ projectColumns (filterCountries raw), r.map Prod.fst = columns_to_keep) ∧
    (∀ r : RawRow, ∀ c ∈ columns_to_keep,
        (projectRow r).lookup c = some (getCell r c)) := by
  refine ⟨?_, ?_, ?_, ?_⟩
  · intro r
    unfold filterCountries
    rw [List.mem_filter]
    simp
  · exact List.length_map _ _
  · intro r hr
    obtain ⟨rr, _, rfl⟩ := List.mem_map.mp hr
    unfold projectRow
    rw [List.map_map]
    exact List.map_id columns_to_keep
  · intro r c hc
    unfold projectRow
    rw [lookup_map_pair columns_to_keep (fun k => getCell r k) c, if_pos hc]

/-- C9 (witness): `c9_filter_project` at a one-row table: the Kenya row
passes the filter because Kenya is whitelisted, its projection lists
exactly the thirteen requested column names in order, and the kept
`population` column carries the source value. -/
theorem c9_witness :
    (exAggA1 ∈ filterCountries [exAggA1]
        ↔ exAggA1 ∈ [exAggA1] ∧
          (getCell exAggA1 "location").asStr ∈ countries_to_include) ∧
    ((projectRow exAggA1).map Prod.fst = columns_to_keep) ∧
    ((projectRow exAggA1).lookup "population" = some (getCell exAggA1 "population")) :=
  ⟨(c9_filter_project [exAggA1]).1 exAggA1,
   (c9_filter_project [exAggA1]).2.2.1 (projectRow exAggA1) (by decide),
   (c9_filter_project [exAggA1]).2.2.2 exAggA1 "population" (by decide)⟩

/-- C10: every cleaned row with 0 cases and strictly positive deaths (the
shape produced by an absent source case count next to recorded deaths)
carries `case_fatality_rate` = +inf — a defined non-finite value distinct
from the NaN "undefined" marker — and the row flows into the latest
snapshot (hence into the insights and the exported tables) exactly as any
other row does, with no flagging. -/
theorem c10_infinite_rate (raw : List RawRow) :
    ∀ r ∈ cleanTable raw, ∀ d : ℚ,
      r.total_cases = EVal.num 0 → r.total_deaths = EVal.num d → 0 < d →
      (r.case_fatality_rate = EVal.pinf ∧
        r.case_fatality_rate ≠ EVal.nan ∧
        (r ∈ latestData (cleanTable raw) ↔ r.date = latestDate (cleanTable raw))) := by
  intro r hr d hc hd hdpos
  obtain ⟨rr, hrr, hreq⟩ := mem_cleanTable.mp hr
  subst hreq
  have hspec := cfr_spec (fillnaStep (toObs (projectRow rr))) 0 d hc hd
  have hpinf := hspec.2.1 rfl hdpos
  refine ⟨hpinf, ?_, ?_⟩
  · intro h
    exact EVal.noConfusion (hpinf.symm.trans h)
  · unfold latestData
    rw [List.mem_filter]
    simp [hr]

/-- C10 (witness): the concrete raw row with absent cases and 2 deaths,
through `c10_infinite_rate`: its cleaned row's rate is +inf and is not the
undefined marker. -/
theorem c10_witness :
    (cleanRow exInfRow).case_fatality_rate = EVal.pinf ∧
    (cleanRow exInfRow).case_fatality_rate ≠ EVal.nan :=
  ⟨(c10_infinite_rate [exInfRow] (cleanRow exInfRow) (by decide) 2
      (by decide) (by decide) (by decide)).1,
   (c10_infinite_rate [exInfRow] (cleanRow exInfRow) (by decide) 2
      (by decide) (by decide) (by decide)).2.1⟩
